import Mathlib

/-!
Shallow embedding of a browser-local task manager written in TypeScript/React.

Sources embedded here:
* `src/types.ts` — the `Task` record and the `FilterType` enumeration;
* `src/App.tsx` — the store operations `addTask`, `toggleTask`, `deleteTask`,
  `editTask` and the derivation pipeline `filteredTasks`;
* the task item component (`handleSave`, the presentation-layer guard in
  front of `editTask`);
* the subtask suggestion client (`suggestSubtasks`).

Modeling conventions: JavaScript numbers holding millisecond timestamps are
modeled as unbounded integers (the values involved are far below 2^53, where
JavaScript number arithmetic is exact); `undefined` optional values are
`Option.none`; the ambient local time zone is a parameter `off`, the offset in
milliseconds east of UTC; `crypto.randomUUID()` and `Date.now()` readings are
passed in as parameters.
-/

namespace TaskApp

/-- Characters removed by the JavaScript `String.prototype.trim`
(the ECMAScript WhiteSpace and LineTerminator code points). -/
def jsWhitespace (c : Char) : Bool :=
  c = ' ' || c = '\t' || c = '\n' || c = '\r' || c = '\x0b' || c = '\x0c' ||
  c = '\u00A0' || c = '\u1680' || ('\u2000' ≤ c && c ≤ '\u200A') ||
  c = '\u2028' || c = '\u2029' || c = '\u202F' || c = '\u205F' ||
  c = '\u3000' || c = '\uFEFF'

/-- Trim on the underlying character list: drop whitespace from the front,
then from the back. -/
def trimData (l : List Char) : List Char :=
  ((l.dropWhile jsWhitespace).reverse.dropWhile jsWhitespace).reverse

/-- Model of the JavaScript `String.prototype.trim`. -/
def jsTrim (s : String) : String := ⟨trimData s.data⟩

/-- Milliseconds in one day. -/
def msPerDay : Int := 86400000

/-- Days-since-epoch to (year, month, day) in the proleptic Gregorian
calendar (the standard civil-from-days algorithm); this is what
`getFullYear`, `getMonth() + 1`, `getDate` of a `Date` compute from a
timestamp once the local offset has been applied. -/
def civilFromDays (z0 : Int) : Int × Int × Int :=
  let z := z0 + 719468
  let era := Int.fdiv z 146097
  let doe := z - era * 146097
  let yoe := Int.fdiv (doe - Int.fdiv doe 1460 + Int.fdiv doe 36524 - Int.fdiv doe 146096) 365
  let y := yoe + era * 400
  let doy := doe - (365 * yoe + Int.fdiv yoe 4 - Int.fdiv yoe 100)
  let mp := Int.fdiv (5 * doy + 2) 153
  let d := doy - Int.fdiv (153 * mp + 2) 5 + 1
  let m := mp + (if mp < 10 then 3 else -9)
  (y + (if m ≤ 2 then 1 else 0), m, d)

/-- (year, month, day) to days-since-epoch (the inverse civil algorithm).
The month must be in 1..12; the day may be any integer, out-of-range days
roll over linearly exactly as in the JavaScript `Date` constructor. -/
def daysFromCivil (y0 m d : Int) : Int :=
  let y := if m ≤ 2 then y0 - 1 else y0
  let era := Int.fdiv y 400
  let yoe := y - era * 400
  let mp := Int.emod (m + 9) 12
  let doy := Int.fdiv (153 * mp + 2) 5 + d - 1
  let doe := yoe * 365 + Int.fdiv yoe 4 - Int.fdiv yoe 100 + doy
  era * 146097 + doe - 719468

/-- Timestamp (ms) of local midnight of the civil date `(y, m, d)` in a time
zone `off` milliseconds east of UTC; models `new Date(y, m - 1, d).getTime()`
including the JavaScript quirk mapping years 0..99 to 1900..1999 and the
rollover of out-of-range month indexes. -/
def jsDateTime (off : Int) (y m d : Int) : Int :=
  let y1 := if 0 ≤ y ∧ y ≤ 99 then y + 1900 else y
  let months := y1 * 12 + (m - 1)
  let yy := Int.fdiv months 12
  let mm := Int.emod months 12 + 1
  daysFromCivil yy mm d * msPerDay - off

/-- Two-digit zero padding; models `String(n).padStart(2, "0")` for the
month and day values (always in 1..31). -/
def pad2 (n : Int) : String :=
  if n < 10 then "0" ++ Int.repr n else Int.repr n

/-- The local calendar day of a timestamp rendered the way the code renders
it (a `y-m-d` template with month and day zero-padded), in a time zone `off`
milliseconds east of UTC. -/
def fmtLocalDay (off ts : Int) : String :=
  let c := civilFromDays (Int.fdiv (ts + off) msPerDay)
  Int.repr c.1 ++ "-" ++ pad2 c.2.1 ++ "-" ++ pad2 c.2.2

/-- Parse a `y-m-d` string to the timestamp of its local midnight; models
`const [y, m, d] = s.split("-").map(Number)` followed by
`new Date(y, m - 1, d).getTime()`. The result `none` models a NaN timestamp
(missing or non-numeric parts), which every downstream truthiness check
treats the same as an absent value; `String.toInt?` agrees with the
JavaScript `Number` conversion on the canonical digit strings produced by
date inputs. -/
def dateStrToTs (off : Int) (s : String) : Option Int :=
  match (s.splitOn "-").map String.toInt? with
  | some y :: some m :: some d :: _ => some (jsDateTime off y m d)
  | _ => none

/-- Due-date parse used by `addTask` (`if (dateStr) { ... }` on an optional
string): `undefined` and the empty string are falsy, leaving the due date
unset. -/
def parseOptDate (off : Int) : Option String → Option Int
  | none => none
  | some s => if s = "" then none else dateStrToTs off s

/-- Due-date parse used by `handleSave` (`if (editDate) { ... }` on a string
state variable): the empty string is falsy, leaving the due date unset. -/
def parseEditDate (off : Int) (s : String) : Option Int :=
  if s = "" then none else dateStrToTs off s

/-- The `Task` record from `types.ts`. -/
structure Task where
  id : String
  text : String
  completed : Bool
  createdAt : Int
  dueDate : Option Int
deriving DecidableEq, Repr

/-- The `FilterType` enumeration from `types.ts`. -/
inductive FilterType
  | ALL
  | ACTIVE
  | COMPLETED
deriving DecidableEq, Repr

/-- `addTask` from `App.tsx` (lines 30-47): no-op when the text trims to the
empty string (falsy), otherwise prepend a fresh incomplete task carrying the
trimmed text and the parsed due date. -/
def addTask (off now : Int) (freshId : String) (text : String)
    (dateStr : Option String) (tasks : List Task) : List Task :=
  if jsTrim text = "" then tasks
  else
    { id := freshId, text := jsTrim text, completed := false,
      createdAt := now, dueDate := parseOptDate off dateStr } :: tasks

/-- `toggleTask` from `App.tsx` (lines 59-63). -/
def toggleTask (tid : String) (tasks : List Task) : List Task :=
  tasks.map fun t => if t.id = tid then { t with completed := !t.completed } else t

/-- `deleteTask` from `App.tsx` (lines 65-67). -/
def deleteTask (tid : String) (tasks : List Task) : List Task :=
  tasks.filter fun t => t.id != tid

/-- `editTask` from `App.tsx` (lines 69-73): unconditionally replaces `text`
and `dueDate` on every task whose id matches. -/
def editTask (tid : String) (newText : String) (newDueDate : Option Int)
    (tasks : List Task) : List Task :=
  tasks.map fun t =>
    if t.id = tid then { t with text := newText, dueDate := newDueDate } else t

/-- Store effect of `handleSave` from the task item component (lines 34-47):
when the edited text trims to non-empty (truthy) it calls `editTask` with the
trimmed text and the parsed edit date; otherwise it only reverts local
component state and the store is untouched. -/
def handleSaveStore (off : Int) (tid : String) (editText editDate : String)
    (tasks : List Task) : List Task :=
  if jsTrim editText ≠ "" then
    editTask tid (jsTrim editText) (parseEditDate off editDate) tasks
  else tasks

/-- Truthiness of an optional numeric due date (`t.dueDate` in a boolean
context): absent (`undefined`) and `0` are both falsy. -/
def dueTruthy : Option Int → Bool
  | none => false
  | some v => v != 0

/-- The numeric due-date value once truthiness has been established. -/
def dueVal (o : Option Int) : Int := o.getD 0

/-- Status-filter stage of `filteredTasks` (`App.tsx` lines 102-107). -/
def statusStage (filter : FilterType) (tasks : List Task) : List Task :=
  match filter with
  | .ACTIVE => tasks.filter fun t => !t.completed
  | .COMPLETED => tasks.filter fun t => t.completed
  | .ALL => tasks

/-- Date-filter predicate of `filteredTasks` (`App.tsx` lines 110-119):
`if (!t.dueDate) return false` and then comparison of the local calendar-day
string of the due date with `filterDate`. -/
def datePass (off : Int) (filterDate : String) (t : Task) : Bool :=
  dueTruthy t.dueDate && (fmtLocalDay off (dueVal t.dueDate) == filterDate)

/-- Date-filter stage: applied only when `filterDate` is truthy (non-empty). -/
def dateStage (off : Int) (filterDate : String) (tasks : List Task) : List Task :=
  if filterDate ≠ "" then tasks.filter (datePass off filterDate) else tasks

/-- The comparator passed to `result.sort` (`App.tsx` lines 122-138),
returning a negative, zero or positive number. -/
def cmpTask (filter : FilterType) (filterDate : String) (a b : Task) : Int :=
  if filter = FilterType.ALL ∧ a.completed ≠ b.completed then
    if a.completed then 1 else -1
  else if filterDate ≠ "" then b.createdAt - a.createdAt
  else if dueTruthy a.dueDate && dueTruthy b.dueDate then
    dueVal a.dueDate - dueVal b.dueDate
  else if dueTruthy a.dueDate then -1
  else if dueTruthy b.dueDate then 1
  else b.createdAt - a.createdAt

/-- The comparator as a relation (`a` is allowed to come before `b`).
`Array.prototype.sort` is specified to be stable, and with a consistent
comparator (which `cmpTask` is, see `cmpTask_le_iff_key`) its result is the
unique stable sort by this relation, which insertion sort implements. -/
def taskLe (filter : FilterType) (filterDate : String) (a b : Task) : Prop :=
  cmpTask filter filterDate a b ≤ 0

instance (filter : FilterType) (filterDate : String) :
    DecidableRel (taskLe filter filterDate) := fun a b =>
  inferInstanceAs (Decidable (cmpTask filter filterDate a b ≤ 0))

/-- `filteredTasks` from `App.tsx` (lines 99-139): status filter, then date
filter, then sort by the comparator. -/
def filteredTasks (off : Int) (tasks : List Task) (filter : FilterType)
    (filterDate : String) : List Task :=
  List.insertionSort (taskLe filter filterDate)
    (dateStage off filterDate (statusStage filter tasks))

/-- The canonical `tasks` array after the `filteredTasks` memo body has run.
In the source, `result` still aliases the state array `tasks` exactly when
the status filter takes its default (`ALL`) branch and `filterDate` is falsy
(in every other case an intervening `Array.prototype.filter` allocates a
fresh array), and `result.sort` then sorts the aliased state array in
place. -/
def filteredTasksPost (off : Int) (tasks : List Task) (filter : FilterType)
    (filterDate : String) : List Task :=
  if filter = FilterType.ALL ∧ filterDate = "" then
    filteredTasks off tasks filter filterDate
  else tasks

/-- Shape of the response object returned by the generative-language call:
`response.text` may be absent (`undefined`). -/
structure GenResponse where
  text : Option String
deriving DecidableEq, Repr

/-- Shape of the value produced by `JSON.parse` after the unchecked cast:
the `subtasks` field may be absent. -/
structure ParsedResult where
  subtasks : Option (List String)
deriving DecidableEq, Repr

/-- The subtask suggestion client `suggestSubtasks`. The outcome of the
awaited network call and the behaviour of `JSON.parse` are passed in as
parameters (`Except.error` models a thrown exception, caught by the
surrounding `try`/`catch`); the task text only shapes the request prompt and
cannot affect control flow. The first component of the result records
whether control reached the network request (`await ai.models.generateContent`);
the second is the returned subtask list. The function is total: no branch
propagates an error to the caller. -/
def suggestSubtasks (_taskText : String) (apiKey : String)
    (call : Except String GenResponse)
    (parse : String → Except String ParsedResult) : Bool × List String :=
  if apiKey = "" then (false, [])
  else
    (true,
      match call with
      | .error _ => []
      | .ok resp =>
        match resp.text with
        | none => []
        | some jsonText =>
          if jsonText = "" then []
          else
            match parse jsonText with
            | .error _ => []
            | .ok r => r.subtasks.getD [])

/-- A concrete always-throwing stand-in for `JSON.parse`, used to instantiate
witnesses. -/
def parseAlwaysFails : String → Except String ParsedResult :=
  fun _ => Except.error "malformed"

/-- The data-model invariant of the specification: no task in the store has
empty or whitespace-only text. -/
def textInvariant (tasks : List Task) : Prop :=
  ∀ t ∈ tasks, jsTrim t.text ≠ ""

/-- Store states reachable from the initial empty list through the store
mutations, with edits entering through the presentation layer's save
handler (the only caller of `editTask` in the source). -/
inductive Reachable : List Task → Prop
  | init : Reachable []
  | add (off now : Int) (freshId text : String) (dateStr : Option String)
      {tasks : List Task} :
      Reachable tasks → Reachable (addTask off now freshId text dateStr tasks)
  | toggle (tid : String) {tasks : List Task} :
      Reachable tasks → Reachable (toggleTask tid tasks)
  | del (tid : String) {tasks : List Task} :
      Reachable tasks → Reachable (deleteTask tid tasks)
  | save (off : Int) (tid editText editDate : String) {tasks : List Task} :
      Reachable tasks → Reachable (handleSaveStore off tid editText editDate tasks)

/-- Lexicographic sort key realizing the comparator: completed-group rank
(only separating when the status filter is `ALL`), then the
has-truthy-due-date rank, then due date ascending or creation time
descending, with the middle components collapsing when a date filter is
active. -/
def sortKey (filter : FilterType) (filterDate : String) (t : Task) :
    Int × Int × Int :=
  (if filter = FilterType.ALL ∧ t.completed = true then 1 else 0,
   if filterDate ≠ "" then 0 else if dueTruthy t.dueDate then 0 else 1,
   if filterDate ≠ "" then -t.createdAt
   else if dueTruthy t.dueDate then dueVal t.dueDate else -t.createdAt)

/-- Non-strict lexicographic order on integer triples. -/
def lexLe (x y : Int × Int × Int) : Prop :=
  x.1 < y.1 ∨ (x.1 = y.1 ∧ (x.2.1 < y.2.1 ∨ (x.2.1 = y.2.1 ∧ x.2.2 ≤ y.2.2)))

theorem lexLe_trans {x y z : Int × Int × Int} (h1 : lexLe x y) (h2 : lexLe y z) :
    lexLe x z := by
  obtain ⟨x1, x2, x3⟩ := x
  obtain ⟨y1, y2, y3⟩ := y
  obtain ⟨z1, z2, z3⟩ := z
  unfold lexLe at *
  dsimp at *
  omega

theorem lexLe_total (x y : Int × Int × Int) : lexLe x y ∨ lexLe y x := by
  obtain ⟨x1, x2, x3⟩ := x
  obtain ⟨y1, y2, y3⟩ := y
  unfold lexLe
  dsimp
  omega

/-- The comparator is consistent: allowing `a` before `b` is exactly the
non-strict lexicographic comparison of the sort keys. -/
theorem cmpTask_le_iff_key (f : FilterType) (fd : String) (a b : Task) :
    taskLe f fd a b ↔ lexLe (sortKey f fd a) (sortKey f fd b) := by
  unfold taskLe cmpTask sortKey lexLe
  cases f <;> cases hac : a.completed <;> cases hbc : b.completed <;>
    by_cases hfd : fd = "" <;> cases hda : dueTruthy a.dueDate <;>
    cases hdb : dueTruthy b.dueDate <;>
    simp [hfd, hda, hdb]

theorem taskLe_trans (f : FilterType) (fd : String) :
    ∀ a b c : Task, taskLe f fd a b → taskLe f fd b c → taskLe f fd a c :=
  fun a b c h1 h2 =>
    (cmpTask_le_iff_key f fd a c).2
      (lexLe_trans ((cmpTask_le_iff_key f fd a b).1 h1)
        ((cmpTask_le_iff_key f fd b c).1 h2))

theorem taskLe_total (f : FilterType) (fd : String) :
    ∀ a b : Task, taskLe f fd a b ∨ taskLe f fd b a := fun a b => by
  rcases lexLe_total (sortKey f fd a) (sortKey f fd b) with h | h
  · exact Or.inl ((cmpTask_le_iff_key f fd a b).2 h)
  · exact Or.inr ((cmpTask_le_iff_key f fd b a).2 h)

/-- The derived list is sorted by the comparator relation. -/
theorem filteredTasks_sorted (off : Int) (tasks : List Task) (f : FilterType)
    (fd : String) : (filteredTasks off tasks f fd).Pairwise (taskLe f fd) := by
  haveI : IsTotal Task (taskLe f fd) := ⟨taskLe_total f fd⟩
  haveI : IsTrans Task (taskLe f fd) := ⟨taskLe_trans f fd⟩
  exact List.sorted_insertionSort (taskLe f fd) _

/-- The derived list is a permutation of the output of the two filter
stages. -/
theorem filteredTasks_perm (off : Int) (tasks : List Task) (f : FilterType)
    (fd : String) :
    List.Perm (filteredTasks off tasks f fd)
      (dateStage off fd (statusStage f tasks)) :=
  List.perm_insertionSort _ _

theorem dropWhile_idem {α : Type} (p : α → Bool) :
    ∀ l : List α, (l.dropWhile p).dropWhile p = l.dropWhile p
  | [] => rfl
  | a :: l => by
    by_cases h : p a
    · simp [List.dropWhile_cons, h, dropWhile_idem p l]
    · simp [List.dropWhile_cons, h]

theorem dropWhile_eq_self_head {α : Type} (p : α → Bool) (c : α) (t : List α)
    (h : (c :: t).dropWhile p = c :: t) : p c = false := by
  have h0 := List.dropWhile_eq_self_iff.mp h (by simp)
  simpa using h0

/-- Right-trimming a list whose head is not dropped by `p` yields a list
whose head is still not dropped by `p`. -/
theorem dropWhile_trimRight {α : Type} (p : α → Bool) (m : List α)
    (hm : m.dropWhile p = m) :
    ((m.reverse.dropWhile p).reverse).dropWhile p =
      (m.reverse.dropWhile p).reverse := by
  obtain ⟨s, hs⟩ := List.dropWhile_suffix (l := m.reverse) p
  have hsplit : m = (m.reverse.dropWhile p).reverse ++ s.reverse := by
    have := congrArg List.reverse hs
    simpa [List.reverse_append] using this.symm
  cases hd : (m.reverse.dropWhile p).reverse with
  | nil => simp
  | cons c t0 =>
    rw [hd] at hsplit
    have hpc : p c = false := by
      apply dropWhile_eq_self_head p c (t0 ++ s.reverse)
      rw [List.cons_append] at hsplit
      rw [← hsplit]
      exact hm
    rw [List.dropWhile_cons_of_neg (by simp [hpc])]

theorem trimData_idem (l : List Char) : trimData (trimData l) = trimData l := by
  have h1 : (l.dropWhile jsWhitespace).dropWhile jsWhitespace =
      l.dropWhile jsWhitespace := dropWhile_idem jsWhitespace l
  have h2 := dropWhile_trimRight jsWhitespace (l.dropWhile jsWhitespace) h1
  unfold trimData
  rw [h2, List.reverse_reverse, dropWhile_idem]

/-- The modeled JavaScript trim is idempotent. -/
theorem jsTrim_idem (s : String) : jsTrim (jsTrim s) = jsTrim s :=
  congrArg String.mk (trimData_idem s.data)

/-- C1: an edit whose new text trims to empty resolves to a revert of local
edit state in the save handler (the only caller of `editTask`) and never
reaches the store, so the target task's `text` and `dueDate` — indeed the
whole list — are unchanged. -/
theorem c1_empty_edit_is_noop (off : Int) (tid editText editDate : String)
    (tasks : List Task) (h : jsTrim editText = "") :
    handleSaveStore off tid editText editDate tasks = tasks := by
  unfold handleSaveStore
  simp [h]

/-- C1 witness: a concrete empty edit against a concrete store. -/
theorem c1_empty_edit_is_noop_witness :
    handleSaveStore 0 "id1" "" "2024-06-01" [⟨"id1", "old", false, 0, some 5⟩] =
      [⟨"id1", "old", false, 0, some 5⟩] :=
  c1_empty_edit_is_noop 0 "id1" "" "2024-06-01"
    [⟨"id1", "old", false, 0, some 5⟩] (by decide)

/-- C2 (code-bug exhibit): with status filter `ALL` and no date filter the
memo body's `result` still aliases the canonical state array, and
`Array.prototype.sort` sorts it in place, so deriving the view reorders the
canonical task list — contradicting the specified purity of the derivation
pipeline. With any other filter an intervening `Array.prototype.filter`
copies the array, and the canonical list survives unchanged. -/
theorem c2_pipeline_mutates_canonical_list :
    filteredTasksPost 0 [⟨"1", "a", false, 1, none⟩, ⟨"2", "b", false, 2, none⟩]
        FilterType.ALL "" ≠
      [⟨"1", "a", false, 1, none⟩, ⟨"2", "b", false, 2, none⟩] ∧
    filteredTasksPost 0 [⟨"1", "a", false, 1, none⟩, ⟨"2", "b", false, 2, none⟩]
        FilterType.ALL "" =
      [⟨"2", "b", false, 2, none⟩, ⟨"1", "a", false, 1, none⟩] ∧
    filteredTasksPost 0 [⟨"1", "a", false, 1, none⟩, ⟨"2", "b", false, 2, none⟩]
        FilterType.ACTIVE "" =
      [⟨"1", "a", false, 1, none⟩, ⟨"2", "b", false, 2, none⟩] := by
  decide

/-- C6: `add` is a silent no-op when the text trims to empty (in particular
the list length is unchanged); otherwise it prepends a fresh task carrying
the trimmed text, `completed = false`, the supplied creation time and fresh
id, and the parsed normalized due date. -/
theorem c6_add_spec (off now : Int) (freshId text : String)
    (dateStr : Option String) (tasks : List Task) :
    (jsTrim text = "" → addTask off now freshId text dateStr tasks = tasks) ∧
    (jsTrim text ≠ "" →
      addTask off now freshId text dateStr tasks =
        { id := freshId, text := jsTrim text, completed := false,
          createdAt := now, dueDate := parseOptDate off dateStr } :: tasks) := by
  constructor <;> intro h <;> simp [addTask, h]

/-- C6 witness: a whitespace-only add leaves a concrete list unchanged; a
non-empty add prepends the expected task. -/
theorem c6_add_spec_witness :
    addTask 0 7 "id9" "   " (some "2024-06-01") [] = [] ∧
    addTask 0 7 "id9" " hi " none [] =
      [{ id := "id9", text := "hi", completed := false, createdAt := 7,
         dueDate := none }] :=
  ⟨(c6_add_spec 0 7 "id9" "   " (some "2024-06-01") []).1 (by decide),
   by rw [(c6_add_spec 0 7 "id9" " hi " none []).2 (by decide)]; rfl⟩

/-- C7: the suggestion client never propagates an error. Without a
credential it returns the empty list with no network attempt; with a
credential the call is attempted, and a thrown call, a missing or empty
response text, a parse failure, or a missing `subtasks` field all yield the
empty list — the sole failure signal. -/
theorem c7_suggest_error_handling (taskText apiKey : String)
    (call : Except String GenResponse)
    (parse : String → Except String ParsedResult) :
    (apiKey = "" → suggestSubtasks taskText apiKey call parse = (false, [])) ∧
    (apiKey ≠ "" → (suggestSubtasks taskText apiKey call parse).1 = true) ∧
    (∀ e, call = Except.error e →
      (suggestSubtasks taskText apiKey call parse).2 = []) ∧
    (∀ resp, call = Except.ok resp → (resp.text = none ∨ resp.text = some "") →
      (suggestSubtasks taskText apiKey call parse).2 = []) ∧
    (∀ resp s e, call = Except.ok resp → resp.text = some s →
      parse s = Except.error e →
      (suggestSubtasks taskText apiKey call parse).2 = []) ∧
    (∀ resp s r, call = Except.ok resp → resp.text = some s →
      parse s = Except.ok r → r.subtasks = none →
      (suggestSubtasks taskText apiKey call parse).2 = []) := by
  refine ⟨fun h => by simp [suggestSubtasks, h],
          fun h => by simp [suggestSubtasks, h],
          fun e he => ?_, fun resp hc htext => ?_,
          fun resp s e hc ht hp => ?_, fun resp s r hc ht hp hsub => ?_⟩
  · subst he
    by_cases h : apiKey = "" <;> simp [suggestSubtasks, h]
  · subst hc
    by_cases h : apiKey = "" <;> rcases htext with ht | ht <;>
      simp [suggestSubtasks, h, ht]
  · subst hc
    by_cases h : apiKey = "" <;> by_cases hs : s = "" <;>
      simp [suggestSubtasks, h, ht, hs, hp]
  · subst hc
    by_cases h : apiKey = "" <;> by_cases hs : s = "" <;>
      simp [suggestSubtasks, h, ht, hs, hp, hsub]

/-- C7 witness: concrete failure scenarios resolved through the theorem. -/
theorem c7_suggest_error_handling_witness :
    suggestSubtasks "plan" "" (Except.error "network down") parseAlwaysFails =
      (false, []) ∧
    (suggestSubtasks "plan" "key" (Except.error "network down")
        parseAlwaysFails).2 = [] ∧
    (suggestSubtasks "plan" "key" (Except.ok ⟨some "oops"⟩)
        parseAlwaysFails).2 = [] :=
  ⟨(c7_suggest_error_handling "plan" "" (Except.error "network down")
      parseAlwaysFails).1 rfl,
   (c7_suggest_error_handling "plan" "key" (Except.error "network down")
      parseAlwaysFails).2.2.1 "network down" rfl,
   (c7_suggest_error_handling "plan" "key" (Except.ok ⟨some "oops"⟩)
      parseAlwaysFails).2.2.2.2.1 ⟨some "oops"⟩ "oops" "malformed" rfl rfl rfl⟩

/-- C10: editing with any new text and optional due date rewrites exactly
the matching tasks, setting `text` and `dueDate` to precisely the supplied
values (an omitted due date clears a previously set one) while the record
update keeps `id`, `createdAt` and `completed`, and every non-matching task
is returned unchanged in place. -/
theorem c10_edit_frame (tid newText : String) (newDueDate : Option Int)
    (tasks : List Task) :
    (editTask tid newText newDueDate tasks).length = tasks.length ∧
    ∀ i : Nat, ∀ t : Task, tasks[i]? = some t →
      (editTask tid newText newDueDate tasks)[i]? =
        some (if t.id = tid
          then { t with text := newText, dueDate := newDueDate } else t) := by
  constructor
  · simp [editTask]
  · intro i t ht
    simp [editTask, ht]

/-- Pairwise ordering facts asserted for the default (no date filter) sort,
with a due date that is absent or zero (falsy in the code) counting as
lacking: due-dated tasks first, due dates ascending among them, creation
time descending among the undated. -/
def defaultOrder (a b : Task) : Prop :=
  (dueTruthy b.dueDate = true → dueTruthy a.dueDate = true) ∧
  (dueTruthy a.dueDate = true → dueTruthy b.dueDate = true →
    dueVal a.dueDate ≤ dueVal b.dueDate) ∧
  (dueTruthy a.dueDate = false → dueTruthy b.dueDate = false →
    b.createdAt ≤ a.createdAt)

/-- C3 (amended: a present due date equal to the epoch timestamp `0` is
falsy in the code and counts as absent): with no date filter, any two tasks
of the derived list in the same completed-group (or any two, when the
status filter is not `ALL`) are ordered with nonzero-due-dated tasks first,
by due date ascending among those, and by creation time descending among
the rest. -/
theorem c3_default_sort_order (off : Int) (tasks : List Task)
    (f : FilterType) :
    (filteredTasks off tasks f "").Pairwise
      (fun a b =>
        (f = FilterType.ALL → a.completed = b.completed) →
          defaultOrder a b) := by
  refine (filteredTasks_sorted off tasks f "").imp ?_
  intro a b hab hgroup
  unfold taskLe cmpTask at hab
  have hnc : ¬(f = FilterType.ALL ∧ a.completed ≠ b.completed) := by
    rintro ⟨hf, hne⟩
    exact hne (hgroup hf)
  rw [if_neg hnc, if_neg (by simp)] at hab
  cases hda : dueTruthy a.dueDate <;> cases hdb : dueTruthy b.dueDate <;>
    simp [hda, hdb, defaultOrder] at hab ⊢ <;> omega

/-- C3 counterexample to the original claim: with filter `ACTIVE` and no
date filter, a task whose `dueDate` is present but `0` (the epoch, falsy in
JavaScript) is ordered after a younger task with no due date at all,
although the claim as stated orders every task with a present due date
first. -/
theorem c3_epoch_due_counterexample :
    filteredTasks 0
        [⟨"a", "A", false, 0, some 0⟩, ⟨"b", "B", false, 5, none⟩]
        FilterType.ACTIVE "" =
      [⟨"b", "B", false, 5, none⟩, ⟨"a", "A", false, 0, some 0⟩] ∧
    ¬ (filteredTasks 0
        [⟨"a", "A", false, 0, some 0⟩, ⟨"b", "B", false, 5, none⟩]
        FilterType.ACTIVE "").Pairwise
        (fun a b => b.dueDate.isSome = true → a.dueDate.isSome = true) := by
  decide

/-- C4: with status filter `ALL`, every incomplete task of the derived list
appears strictly before every completed one, for every task list and every
(possibly absent) date filter — the comparator decides this partition before
consulting any other key. -/
theorem c4_completed_partition (off : Int) (tasks : List Task)
    (fd : String) :
    (filteredTasks off tasks FilterType.ALL fd).Pairwise
      (fun a b => a.completed = true → b.completed = true) := by
  refine (filteredTasks_sorted off tasks FilterType.ALL fd).imp ?_
  intro a b hab hac
  by_cases hbc : b.completed = true
  · exact hbc
  · exfalso
    have hk := (cmpTask_le_iff_key FilterType.ALL fd a b).1 hab
    have h1 : (sortKey FilterType.ALL fd a).1 = 1 := by simp [sortKey, hac]
    have h2 : (sortKey FilterType.ALL fd b).1 = 0 := by simp [sortKey, hbc]
    unfold lexLe at hk
    rw [h1, h2] at hk
    rcases hk with h | ⟨h, _⟩ <;> omega

/-- The status-filter stage as a single `filter`. -/
def statusPass (f : FilterType) (t : Task) : Bool :=
  match f with
  | .ACTIVE => !t.completed
  | .COMPLETED => t.completed
  | .ALL => true

theorem statusStage_eq_filter (f : FilterType) (tasks : List Task) :
    statusStage f tasks = tasks.filter (statusPass f) := by
  cases f
  case ALL => exact (List.filter_true tasks).symm
  case ACTIVE => rfl
  case COMPLETED => rfl

/-- C5 (amended: a present due date equal to the epoch timestamp `0` is
falsy in the code and counts as absent): with a date filter set, the
derived list consists exactly — as a multiset — of the tasks that pass the
status filter, carry a present nonzero due date, and whose local calendar
day renders equal to the filter date string; tasks without a due date are
excluded. -/
theorem c5_date_filter_exact (off : Int) (tasks : List Task)
    (f : FilterType) (fd : String) (hfd : fd ≠ "") :
    List.Perm (filteredTasks off tasks f fd)
      (tasks.filter fun t =>
        statusPass f t &&
          match t.dueDate with
          | none => false
          | some v => (v != 0) && (fmtLocalDay off v == fd)) := by
  refine (filteredTasks_perm off tasks f fd).trans ?_
  rw [dateStage, if_pos hfd, statusStage_eq_filter, List.filter_filter]
  have hcongr :
      (tasks.filter fun a => datePass off fd a && statusPass f a) =
        tasks.filter fun t =>
          statusPass f t &&
            match t.dueDate with
            | none => false
            | some v => (v != 0) && (fmtLocalDay off v == fd) := by
    apply List.filter_congr
    intro t _
    cases ht : t.dueDate <;>
      simp [datePass, dueTruthy, dueVal, ht, Bool.and_comm]
  rw [hcongr]

/-- C5 witness: a concrete date filter keeps exactly the matching-day task. -/
theorem c5_date_filter_exact_witness :
    ("1970-01-02" : String) ≠ "" ∧
    List.Perm
      (filteredTasks 0
        [⟨"a", "A", false, 1, some 86400000⟩, ⟨"b", "B", false, 2, none⟩]
        FilterType.ALL "1970-01-02")
      ([⟨"a", "A", false, 1, some 86400000⟩,
        ⟨"b", "B", false, 2, none⟩].filter fun t =>
          statusPass FilterType.ALL t &&
            match t.dueDate with
            | none => false
            | some v => (v != 0) && (fmtLocalDay 0 v == "1970-01-02")) :=
  ⟨by decide,
   c5_date_filter_exact 0
     [⟨"a", "A", false, 1, some 86400000⟩, ⟨"b", "B", false, 2, none⟩]
     FilterType.ALL "1970-01-02" (by decide)⟩

/-- C5 counterexample to the original claim: a task whose due date is
present and whose local calendar day (1970-01-01 at UTC, offset 0) equals
the active filter date is nevertheless dropped, because its timestamp `0`
is falsy in `if (!t.dueDate) return false`. -/
theorem c5_epoch_due_counterexample :
    filteredTasks 0 [⟨"a", "A", false, 1, some 0⟩] FilterType.ALL
        "1970-01-01" = [] ∧
    (⟨"a", "A", false, 1, some 0⟩ : Task).dueDate = some 0 ∧
    fmtLocalDay 0 0 = "1970-01-01" := by
  refine ⟨by decide, rfl, by decide⟩

/-- C8: every store state reachable from the empty initial list through
`add`, `toggle`, `delete` and saves of edits satisfies the invariant that
no task's text trims to the empty string. -/
theorem c8_text_invariant (tasks : List Task) (h : Reachable tasks) :
    textInvariant tasks := by
  induction h with
  | init =>
    intro t ht
    simp at ht
  | add off now freshId text dateStr _ ih =>
    intro t ht
    unfold addTask at ht
    by_cases hempty : jsTrim text = ""
    · rw [if_pos hempty] at ht
      exact ih t ht
    · rw [if_neg hempty] at ht
      rcases List.mem_cons.mp ht with rfl | ht2
      · show jsTrim (jsTrim text) ≠ ""
        rw [jsTrim_idem]
        exact hempty
      · exact ih t ht2
  | toggle tid _ ih =>
    intro t ht
    unfold toggleTask at ht
    obtain ⟨u, hu, rfl⟩ := List.mem_map.mp ht
    by_cases hid : u.id = tid <;> simp [hid] <;> exact ih u hu
  | del tid _ ih =>
    intro t ht
    exact ih t (List.mem_of_mem_filter ht)
  | save off tid editText editDate _ ih =>
    intro t ht
    unfold handleSaveStore at ht
    by_cases hempty : jsTrim editText ≠ ""
    · rw [if_pos hempty] at ht
      unfold editTask at ht
      obtain ⟨u, hu, rfl⟩ := List.mem_map.mp ht
      by_cases hid : u.id = tid
      · show jsTrim (if u.id = tid then _ else u).text ≠ ""
        rw [if_pos hid]
        show jsTrim (jsTrim editText) ≠ ""
        rw [jsTrim_idem]
        exact hempty
      · rw [if_neg hid]
        exact ih u hu
    · rw [if_neg hempty] at ht
      exact ih t ht

/-- C8 witness: the invariant at a concrete reachable state obtained by an
add, a toggle and a saved edit. -/
theorem c8_text_invariant_witness :
    textInvariant
      (handleSaveStore 0 "id1" " new text " ""
        (toggleTask "id1" (addTask 0 0 "id1" "hello" none []))) :=
  c8_text_invariant _
    (Reachable.save 0 "id1" " new text " ""
      (Reachable.toggle "id1" (Reachable.add 0 0 "id1" "hello" none Reachable.init)))

/-- C9: deriving with `ACTIVE` and with `COMPLETED` splits deriving with
`ALL` as multisets, for every task list, date filter and time zone — the
status filter partitions tasks by the completed flag. -/
theorem c9_status_partition (off : Int) (tasks : List Task) (fd : String) :
    List.Perm
      (filteredTasks off tasks FilterType.ACTIVE fd ++
        filteredTasks off tasks FilterType.COMPLETED fd)
      (filteredTasks off tasks FilterType.ALL fd) := by
  have ha := filteredTasks_perm off tasks FilterType.ACTIVE fd
  have hc := filteredTasks_perm off tasks FilterType.COMPLETED fd
  have hall := filteredTasks_perm off tasks FilterType.ALL fd
  refine ((ha.append hc).trans ?_).trans hall.symm
  unfold statusStage dateStage
  by_cases hfd : fd ≠ ""
  · rw [if_pos hfd, if_pos hfd, if_pos hfd, List.filter_filter,
      List.filter_filter]
    have key := List.filter_append_perm (fun t : Task => !t.completed)
      (tasks.filter (datePass off fd))
    rw [List.filter_filter, List.filter_filter] at key
    have e1 : (fun a : Task => !a.completed && datePass off fd a) =
        fun a => datePass off fd a && !a.completed :=
      funext fun a => Bool.and_comm _ _
    have e2 : (fun a : Task => !(!a.completed) && datePass off fd a) =
        fun a => datePass off fd a && a.completed :=
      funext fun a => by simp [Bool.and_comm]
    rw [e1, e2] at key
    exact key
  · rw [if_neg hfd, if_neg hfd, if_neg hfd]
    have key := List.filter_append_perm (fun t : Task => !t.completed) tasks
    have e2 : (fun a : Task => !(!a.completed)) = fun a : Task => a.completed :=
      funext fun a => Bool.not_not _
    rw [e2] at key
    exact key

/-- C3 witness: the amended ordering facts at a concrete derived list. -/
theorem c3_default_sort_order_witness :
    (filteredTasks 0
        [⟨"a", "A", false, 1, some 100⟩, ⟨"b", "B", false, 2, none⟩]
        FilterType.ACTIVE "").Pairwise
      (fun a b =>
        (FilterType.ACTIVE = FilterType.ALL → a.completed = b.completed) →
          defaultOrder a b) :=
  c3_default_sort_order 0
    [⟨"a", "A", false, 1, some 100⟩, ⟨"b", "B", false, 2, none⟩]
    FilterType.ACTIVE

/-- C4 witness: the completed partition at a concrete derived list. -/
theorem c4_completed_partition_witness :
    (filteredTasks 0
        [⟨"a", "A", true, 1, none⟩, ⟨"b", "B", false, 2, none⟩]
        FilterType.ALL "").Pairwise
      (fun a b => a.completed = true → b.completed = true) :=
  c4_completed_partition 0
    [⟨"a", "A", true, 1, none⟩, ⟨"b", "B", false, 2, none⟩] ""

/-- C9 witness: the partition identity at a concrete list. -/
theorem c9_status_partition_witness :
    List.Perm
      (filteredTasks 0 [⟨"a", "A", true, 1, none⟩, ⟨"b", "B", false, 2, none⟩]
          FilterType.ACTIVE "" ++
        filteredTasks 0 [⟨"a", "A", true, 1, none⟩, ⟨"b", "B", false, 2, none⟩]
          FilterType.COMPLETED "")
      (filteredTasks 0 [⟨"a", "A", true, 1, none⟩, ⟨"b", "B", false, 2, none⟩]
          FilterType.ALL "") :=
  c9_status_partition 0
    [⟨"a", "A", true, 1, none⟩, ⟨"b", "B", false, 2, none⟩] ""

/-- C10 witness: a concrete edit updates the matching task in place. -/
theorem c10_edit_frame_witness :
    (editTask "id1" "new" none [⟨"id1", "old", false, 0, some 3⟩])[0]? =
      some (if (⟨"id1", "old", false, 0, some 3⟩ : Task).id = "id1"
        then { (⟨"id1", "old", false, 0, some 3⟩ : Task) with
                 text := "new", dueDate := none }
        else ⟨"id1", "old", false, 0, some 3⟩) :=
  (c10_edit_frame "id1" "new" none [⟨"id1", "old", false, 0, some 3⟩]).2 0
    ⟨"id1", "old", false, 0, some 3⟩ rfl

end TaskApp
